import Mathlib

/-!
Verification of the notification-system server (`src/main.py`).

The development shallowly embeds the three HTTP handlers:

* `get_recent_mentions`   — builds a parameterized BigQuery query and shapes rows;
* `get_notification_settings` — reads the singleton Firestore settings document;
* `update_notification_settings` — validates `sender` / `password` / `recipients`
  and performs at most one merge-write.

Python strings are modelled as Lean `String`s; `str.strip`, `str.isspace`,
`str.split(",")`, `int(...)` and the regex `[^@\s]+@[^@\s]+\.[^@\s]+` (as used
by `re.match`, i.e. anchored at the start only) are given explicit executable
models below.  External effects (the BigQuery query execution and the
Firestore document fetch / merge-write) are passed in as explicit arguments,
and each handler returns its HTTP-level response together with the list of
writes it issued.
-/

namespace NotifServer

/-- Python whitespace on the ASCII range: the characters stripped by
`str.strip()`, matched by `str.isspace()` and by the regex class `\s`
(space, tab, newline, vertical tab, form feed, carriage return). -/
def pyIsSpace (c : Char) : Bool :=
  c = ' ' || c = '\t' || c = '\n' || c = '\x0b' || c = '\x0c' || c = '\r'

/-- Python `str.strip()` on a character list: drop whitespace from both ends. -/
def pyStripL (l : List Char) : List Char :=
  ((l.dropWhile pyIsSpace).reverse.dropWhile pyIsSpace).reverse

/-- Python `str.strip()`. -/
def pyStrip (s : String) : String :=
  ⟨pyStripL s.data⟩

/-- Python `val.split(",")`: splitting on a single-character separator;
`"".split(",") = [""]`, empty segments are kept. -/
def splitComma : List Char → List (List Char)
  | [] => [[]]
  | c :: cs =>
    if c = ',' then [] :: splitComma cs
    else
      match splitComma cs with
      | [] => [[c]]
      | h :: t => (c :: h) :: t

/-! ### The sender regex

`re.match(r"[^@\s]+@[^@\s]+\.[^@\s]+", val)` anchors at the start of `val`
only: it succeeds whenever some PREFIX of `val` matches the pattern.  The
character class `[^@\s]` is modelled by `inC`. -/

/-- A character matched by the class `[^@\s]`. -/
def inC (c : Char) : Bool :=
  !(c = '@') && !(pyIsSpace c)

/-- First character of the list is in `[^@\s]` (and the list is nonempty). -/
def headInC : List Char → Bool
  | [] => false
  | d :: _ => inC d

/-- Backtracking search for `\.[^@\s]` preceded only by `[^@\s]` characters:
matches `l` against `[^@\s]*\.[^@\s]` as a prefix. -/
def domSearch : List Char → Bool
  | [] => false
  | c :: cs => (c = '.' && headInC cs) || (inC c && domSearch cs)

/-- Matches `l` against `[^@\s]+\.[^@\s]+` as a prefix (the final `+` needs
only one character, the rest of `l` is unconstrained). -/
def domMatch : List Char → Bool
  | [] => false
  | c :: cs => inC c && domSearch cs

/-- After at least one local-part character: consume `[^@\s]*@` then the
domain pattern. -/
def afterLocal : List Char → Bool
  | [] => false
  | c :: cs => if c = '@' then domMatch cs else inC c && afterLocal cs

/-- Success of `re.match(r"[^@\s]+@[^@\s]+\.[^@\s]+", s)` (a match exists at
the start of the string). -/
def reMatchSender : List Char → Bool
  | [] => false
  | c :: cs => inC c && afterLocal cs

/-- Declarative reading of a successful anchored match of
`[^@\s]+@[^@\s]+\.[^@\s]+`: some prefix of `l` decomposes as
`local ++ "@" ++ dom ++ "." ++ d` with `local`, `dom` nonempty over
`[^@\s]` and `d` a `[^@\s]` character; the remainder `rest` is
unconstrained. -/
def EmailPrefixPattern (l : List Char) : Prop :=
  ∃ a b d rest, l = a ++ '@' :: (b ++ '.' :: d :: rest) ∧
    a ≠ [] ∧ b ≠ [] ∧
    (∀ x ∈ a, inC x = true) ∧ (∀ x ∈ b, inC x = true) ∧ inC d = true

/-! ### Request body and updates -/

/-- A JSON request-body field: `none` = key absent, `some none` = key present
with `null`, `some (some s)` = key present with value `s` (the handler
applies `str(...)`, so present values are modelled as strings). -/
abbrev BodyField := Option (Option String)

/-- The JSON body of `POST /api/notification-settings`. -/
structure Body where
  sender : BodyField
  password : BodyField
  recipients : BodyField
deriving DecidableEq

/-- The `updates` dict accumulated by `update_notification_settings`:
`none` means the key was never added. -/
structure Updates where
  sender : Option String := none
  password : Option String := none
  recipients : Option (List String) := none
deriving DecidableEq

/-- The empty `updates` dict (falsy in `if updates:`). -/
def emptyUpdates : Updates := {}

/-- Handler response for the settings endpoints: `{ok: true, message}` or
`{ok: false, error}`. -/
inductive PostResult where
  | ok (message : String)
  | err (error : String)
deriving DecidableEq

/-- Step 1 of `update_notification_settings`: the `sender` branch
(lines 120-124 of `src/main.py`). -/
def checkSender (f : BodyField) (u : Updates) : Except String Updates :=
  match f with
  | some (some s) =>
    let val := pyStrip s
    if !(reMatchSender val.data) || val.data.contains ',' then
      .error "Sender must be a single valid email address."
    else .ok { u with sender := some val }
  | _ => .ok u

/-- Step 2 of `update_notification_settings`: the `password` branch
(lines 127-132 of `src/main.py`). -/
def checkPassword (f : BodyField) (u : Updates) : Except String Updates :=
  match f with
  | some (some s) =>
    let val := pyStrip s
    if val.data.any pyIsSpace then
      .error "Password must not contain whitespaces."
    else if val = "" then .ok u
    else .ok { u with password := some val }
  | _ => .ok u

/-- The list `[e.strip() for e in val.split(",") if e.strip()]`. -/
def emailListOf (val : String) : List String :=
  ((splitComma val.data).map (fun l => (⟨pyStripL l⟩ : String))).filter
    (fun e => e ≠ "")

/-- Step 3 of `update_notification_settings`: the `recipients` branch
(lines 135-147 of `src/main.py`). -/
def checkRecipients (f : BodyField) (u : Updates) : Except String Updates :=
  match f with
  | some (some s) =>
    let val := pyStrip s
    if val.data.contains ' ' then
      .error "Recipients must be comma-separated with NO spaces."
    else
      match (emailListOf val).find? (fun e => !(e.data.contains '@')) with
      | some email => .error ("Invalid email in recipients: " ++ email)
      | none => .ok { u with recipients := some (emailListOf val) }
  | _ => .ok u

/-- The validation phase of `update_notification_settings`: the three field
branches in order, each early `return {ok: false, ...}` modelled as
`Except.error`. -/
def processBody (b : Body) : Except String Updates :=
  (checkSender b.sender emptyUpdates).bind fun u =>
    (checkPassword b.password u).bind fun u' =>
      checkRecipients b.recipients u'

/-- Handler `POST /api/notification-settings` (lines 110-160 of `src/main.py`).
`setOutcome` is the result of the Firestore `doc_ref.set(updates, merge=True)`
call if one is issued (`Except.error e` models a raised exception, caught by
the surrounding `try`).  The second component is the list of merge-writes
issued (the argument of each `set` call made). -/
def update_notification_settings (b : Body) (setOutcome : Except String Unit) :
    PostResult × List Updates :=
  match processBody b with
  | .error msg => (.err msg, [])
  | .ok u =>
    if u = emptyUpdates then (.ok "Settings updated successfully", [])
    else
      match setOutcome with
      | .error e => (.err e, [u])
      | .ok _ => (.ok "Settings updated successfully", [u])

/-! ### Firestore settings document and merge semantics -/

/-- The singleton `settings/configuration` document; `none` on a field means
the field is absent from the stored document. -/
structure FsDoc where
  sender : Option String
  password : Option String
  recipients : Option (List String)
deriving DecidableEq

/-- Firestore `set(updates, merge=True)`: fields present in `u` overwrite,
all other fields keep their stored value. -/
def mergeDoc (d : FsDoc) (u : Updates) : FsDoc :=
  { sender := match u.sender with | some v => some v | none => d.sender
    password := match u.password with | some v => some v | none => d.password
    recipients := match u.recipients with | some v => some v | none => d.recipients }

/-- Response of `GET /api/notification-settings`:
`{ok: true, settings: {sender, password, recipients}}` (recipients already
joined to its CSV presentation string) or `{ok: false, error}`. -/
inductive ReadResult where
  | ok (sender password recipients : String)
  | err (error : String)
deriving DecidableEq

/-- Shaping of an existing settings document by the read handler
(lines 89-103 of `src/main.py`): missing fields default to the empty
string / empty list, the recipients array is joined with `","`. -/
def readSettings : Option FsDoc → ReadResult
  | none => .ok "" "" ""
  | some d =>
    .ok (d.sender.getD "") (d.password.getD "")
      (String.intercalate "," (d.recipients.getD []))

/-- Handler `GET /api/notification-settings` (lines 72-107 of `src/main.py`).
`fetch` is the outcome of the Firestore fetch (`Except.error e` models a
raised exception, caught by the handler's `try`); `Except.ok none` means the
document does not exist.  The second component is the list of writes issued
(the handler contains no `set` call). -/
def get_notification_settings (fetch : Except String (Option FsDoc)) :
    ReadResult × List Updates :=
  match fetch with
  | .error e => (.err e, [])
  | .ok doc => (readSettings doc, [])

/-- Predicate: the `sender` branch returns an early error on this field
value (the negation of the accept condition on lines 120-124). -/
def senderRejected (f : BodyField) : Bool :=
  match f with
  | some (some s) =>
    !(reMatchSender (pyStrip s).data) || (pyStrip s).data.contains ','
  | _ => false

/-- Predicate: the `password` branch returns an early error on this field
value (lines 127-130). -/
def passwordRejected (f : BodyField) : Bool :=
  match f with
  | some (some s) => (pyStrip s).data.any pyIsSpace
  | _ => false

/-- Predicate: the `recipients` branch returns an early error on this field
value (lines 135-145). -/
def recipientsRejected (f : BodyField) : Bool :=
  match f with
  | some (some s) =>
    (pyStrip s).data.contains ' ' ||
      ((emailListOf (pyStrip s)).find? (fun e => !(e.data.contains '@'))).isSome
  | _ => false

/-! ### The mentions endpoint -/

/-- A dynamically-typed Python value as it appears on a BigQuery result row:
`None`, an integer, or a string.  (The spec types `start_sec` as numeric;
`int(...)` on the INT64 case is the identity.) -/
inductive PyVal where
  | vnull
  | vint (n : Int)
  | vstr (s : String)
deriving DecidableEq

/-- Python `str(...)` of a row value (as interpolated by an f-string). -/
def pyStr : PyVal → String
  | .vnull => "None"
  | .vint n => toString n
  | .vstr s => s

/-- Digits of a decimal literal to a natural number; `none` when the list is
empty or holds a non-digit. -/
def digitsToNat (l : List Char) : Option Nat :=
  if l ≠ [] && l.all Char.isDigit then
    some (l.foldl (fun a c => a * 10 + (c.toNat - 48)) 0)
  else none

/-- Python `int(s)` on a string: strip whitespace, optional sign, decimal
digits; raises (here `none`) otherwise. -/
def pyParseInt (s : String) : Option Int :=
  match pyStripL s.data with
  | '+' :: ds => (digitsToNat ds).map Int.ofNat
  | '-' :: ds => (digitsToNat ds).map (fun n => -(n : Int))
  | ds => (digitsToNat ds).map Int.ofNat

/-- Python `int(v)`: `some n` when the conversion succeeds, `none` when it
raises (`int(None)`, `int("x")`, ...). -/
def pyToInt : PyVal → Option Int
  | .vnull => none
  | .vint n => some n
  | .vstr s => pyParseInt s

/-- A raw BigQuery result row: each selected column is an attribute that may
be absent (`none`, so that attribute access raises and `getattr(r, _, None)`
defaults) or hold a Python value. -/
structure BqRow where
  video_name : Option PyVal
  keyword : Option PyVal
  text : Option PyVal
  video_url : Option PyVal
  start_sec : Option PyVal
  created_at : Option PyVal
deriving DecidableEq

/-- Python `getattr(r, name, None)`. -/
def getattrD (f : Option PyVal) : PyVal :=
  f.getD .vnull

/-- One shaped output record of `GET /api/mentions/recent`. -/
structure OutRow where
  video_name : PyVal
  keyword : PyVal
  text : PyVal
  video_url : PyVal
  link : PyVal
  start_sec : PyVal
  created_at : String
deriving DecidableEq

/-- The `link` derivation (lines 54-57 of `src/main.py`):
`try: link = f"{r.video_url}&t={int(r.start_sec)}s"` — an absent
`video_url` or `start_sec` attribute, or a failing `int(...)`, raises and
falls back to `link = getattr(r, "video_url", None)`. -/
def rowLink (r : BqRow) : PyVal :=
  match r.video_url, r.start_sec with
  | some u, some sv =>
    match pyToInt sv with
    | some n => .vstr (pyStr u ++ "&t=" ++ toString n ++ "s")
    | none => getattrD r.video_url
  | _, _ => getattrD r.video_url

/-- Shaping of one row (lines 53-67 of `src/main.py`). -/
def shapeRow (r : BqRow) : OutRow :=
  { video_name := getattrD r.video_name
    keyword := getattrD r.keyword
    text := getattrD r.text
    video_url := getattrD r.video_url
    link := rowLink r
    start_sec := getattrD r.start_sec
    created_at := pyStr (getattrD r.created_at) }

/-- The SQL text of the mentions query (lines 37-42 of `src/main.py`): an
f-string interpolating only `table_id`; `hours` appears solely as the named
parameter `@hours`. -/
def mentionsSQL (table_id : String) : String :=
  "\n\tSELECT video_name, keyword, text, video_url, start_sec, created_at\n\tFROM `"
    ++ table_id ++
    "`\n\tWHERE CAST(created_at AS TIMESTAMP) > TIMESTAMP_SUB(CURRENT_TIMESTAMP(), INTERVAL @hours HOUR)\n\tORDER BY created_at DESC\n\t"

/-- A query job: the SQL text plus the bound scalar parameters
(name, BigQuery type, value), as assembled by `QueryJobConfig`. -/
structure QueryJob where
  sql : String
  params : List (String × String × Int)
deriving DecidableEq

/-- Query construction in `get_recent_mentions` (lines 34-48 of
`src/main.py`): `table_id = f"{project}.{dataset}.{table}"`, the SQL text,
and the single bound parameter `("hours", "INT64", hours)`. -/
def buildMentionsQuery (project dataset table : String) (hours : Int) : QueryJob :=
  { sql := mentionsSQL (project ++ "." ++ dataset ++ "." ++ table)
    params := [("hours", "INT64", hours)] }

/-- Denotational semantics of the built query over a table of rows tagged
with their `created_at` timestamp (epoch seconds): keep rows with
`created_at > now - hours * 3600` (the `WHERE` clause, `INTERVAL @hours
HOUR`), ordered by `created_at` descending (the `ORDER BY`). -/
def runMentionsQuery (now hours : Int) (table : List (Int × BqRow)) :
    List (Int × BqRow) :=
  (table.filter (fun p => now - hours * 3600 < p.1)).mergeSort
    (fun p q => q.1 ≤ p.1)

/-- Response of `GET /api/mentions/recent`. -/
structure MentionsResponse where
  count : Nat
  results : List OutRow
deriving DecidableEq

/-- Handler `GET /api/mentions/recent` (lines 26-69 of `src/main.py`).  `exec` is
the execution of the built query by the BigQuery client; its exception
(`Except.error`) is NOT caught by the handler (there is no `try` around
`client.query(...).result()`), so it propagates: the handler's own result
type is `Except`. -/
def get_recent_mentions (project dataset table : String) (hours : Int)
    (exec : QueryJob → Except String (List BqRow)) :
    Except String MentionsResponse :=
  match exec (buildMentionsQuery project dataset table hours) with
  | .error e => .error e
  | .ok rows => .ok { count := (rows.map shapeRow).length
                      results := rows.map shapeRow }

/-! ### Characterization of the anchored regex match -/

theorem domSearch_iff (l : List Char) :
    domSearch l = true ↔
      ∃ b d rest, l = b ++ '.' :: d :: rest ∧
        (∀ x ∈ b, inC x = true) ∧ inC d = true := by
  induction l with
  | nil =>
    simp only [domSearch]
    constructor
    · intro h; cases h
    · rintro ⟨b, d, rest, h, -, -⟩
      exact absurd h (by simp)
  | cons c cs ih =>
    simp only [domSearch, Bool.or_eq_true, Bool.and_eq_true, decide_eq_true_eq]
    constructor
    · rintro (⟨hc, hh⟩ | ⟨hc, hs⟩)
      · cases cs with
        | nil => simp [headInC] at hh
        | cons d rest =>
          exact ⟨[], d, rest, by simp [hc], by simp, by simpa [headInC] using hh⟩
      · obtain ⟨b, d, rest, heq, hb, hd⟩ := ih.mp hs
        refine ⟨c :: b, d, rest, by simp [heq], ?_, hd⟩
        intro x hx
        rcases List.mem_cons.mp hx with h | h
        · subst h; exact hc
        · exact hb x h
    · rintro ⟨b, d, rest, heq, hb, hd⟩
      cases b with
      | nil =>
        simp only [List.nil_append, List.cons.injEq] at heq
        exact Or.inl ⟨heq.1, by simp [heq.2, headInC, hd]⟩
      | cons x b' =>
        simp only [List.cons_append, List.cons.injEq] at heq
        refine Or.inr ⟨heq.1 ▸ hb x (List.mem_cons_self x b'), ?_⟩
        exact ih.mpr ⟨b', d, rest, heq.2, fun y hy => hb y (List.mem_cons_of_mem x hy), hd⟩

theorem domMatch_iff (l : List Char) :
    domMatch l = true ↔
      ∃ b d rest, l = b ++ '.' :: d :: rest ∧ b ≠ [] ∧
        (∀ x ∈ b, inC x = true) ∧ inC d = true := by
  cases l with
  | nil =>
    simp only [domMatch]
    constructor
    · intro h; cases h
    · rintro ⟨b, d, rest, h, -, -, -⟩
      exact absurd h (by simp)
  | cons c cs =>
    simp only [domMatch, Bool.and_eq_true]
    constructor
    · rintro ⟨hc, hs⟩
      obtain ⟨b, d, rest, heq, hb, hd⟩ := (domSearch_iff cs).mp hs
      refine ⟨c :: b, d, rest, by simp [heq], by simp, ?_, hd⟩
      intro x hx
      rcases List.mem_cons.mp hx with h | h
      · subst h; exact hc
      · exact hb x h
    · rintro ⟨b, d, rest, heq, hne, hb, hd⟩
      cases b with
      | nil => exact absurd rfl hne
      | cons x b' =>
        simp only [List.cons_append, List.cons.injEq] at heq
        refine ⟨heq.1 ▸ hb x (List.mem_cons_self x b'), ?_⟩
        exact (domSearch_iff cs).mpr
          ⟨b', d, rest, heq.2, fun y hy => hb y (List.mem_cons_of_mem x hy), hd⟩

theorem afterLocal_iff (l : List Char) :
    afterLocal l = true ↔
      ∃ a t, l = a ++ '@' :: t ∧ (∀ x ∈ a, inC x = true) ∧ domMatch t = true := by
  induction l with
  | nil =>
    simp only [afterLocal]
    constructor
    · intro h; cases h
    · rintro ⟨a, t, h, -, -⟩
      exact absurd h (by simp)
  | cons c cs ih =>
    simp only [afterLocal]
    by_cases hc : c = '@'
    · subst hc
      simp only [if_pos rfl]
      constructor
      · intro h
        exact ⟨[], cs, by simp, by simp, h⟩
      · rintro ⟨a, t, heq, ha, hd⟩
        cases a with
        | nil =>
          simp only [List.nil_append, List.cons.injEq] at heq
          exact heq.2 ▸ hd
        | cons x a' =>
          simp only [List.cons_append, List.cons.injEq] at heq
          have : inC '@' = true := heq.1 ▸ ha x (List.mem_cons_self x a')
          exact absurd this (by decide)
    · simp only [if_neg hc, Bool.and_eq_true]
      constructor
      · rintro ⟨hcc, hs⟩
        obtain ⟨a, t, heq, ha, hd⟩ := ih.mp hs
        refine ⟨c :: a, t, by simp [heq], ?_, hd⟩
        intro x hx
        rcases List.mem_cons.mp hx with h | h
        · subst h; exact hcc
        · exact ha x h
      · rintro ⟨a, t, heq, ha, hd⟩
        cases a with
        | nil =>
          simp only [List.nil_append, List.cons.injEq] at heq
          exact absurd heq.1 hc
        | cons x a' =>
          simp only [List.cons_append, List.cons.injEq] at heq
          refine ⟨heq.1 ▸ ha x (List.mem_cons_self x a'), ?_⟩
          exact ih.mpr ⟨a', t, heq.2, fun y hy => ha y (List.mem_cons_of_mem x hy), hd⟩

/-- The executable matcher agrees with the declarative prefix pattern:
`re.match(r"[^@\s]+@[^@\s]+\.[^@\s]+", s)` succeeds iff some prefix of `s`
decomposes as `local ++ "@" ++ dom ++ "." ++ last-char` over `[^@\s]`. -/
theorem reMatchSender_iff (l : List Char) :
    reMatchSender l = true ↔ EmailPrefixPattern l := by
  cases l with
  | nil =>
    simp only [reMatchSender, EmailPrefixPattern]
    constructor
    · intro h; cases h
    · rintro ⟨a, b, d, rest, h, -, -, -, -, -⟩
      exact absurd h (by simp)
  | cons c cs =>
    simp only [reMatchSender, Bool.and_eq_true, EmailPrefixPattern]
    constructor
    · rintro ⟨hc, hs⟩
      obtain ⟨a, t, heq, ha, hd⟩ := (afterLocal_iff cs).mp hs
      obtain ⟨b, d, rest, heqt, hbne, hb, hdc⟩ := (domMatch_iff t).mp hd
      refine ⟨c :: a, b, d, rest, by simp [heq, heqt], by simp, hbne, ?_, hb, hdc⟩
      intro x hx
      rcases List.mem_cons.mp hx with h | h
      · subst h; exact hc
      · exact ha x h
    · rintro ⟨a, b, d, rest, heq, hane, hbne, ha, hb, hdc⟩
      cases a with
      | nil => exact absurd rfl hane
      | cons x a' =>
        simp only [List.cons_append, List.cons.injEq] at heq
        refine ⟨heq.1 ▸ ha x (List.mem_cons_self x a'), ?_⟩
        refine (afterLocal_iff cs).mpr
          ⟨a', b ++ '.' :: d :: rest, heq.2,
            fun y hy => ha y (List.mem_cons_of_mem x hy), ?_⟩
        exact (domMatch_iff _).mpr ⟨b, d, rest, rfl, hbne, hb, hdc⟩

/-! ### Per-field rejection helper lemmas -/

theorem checkSender_error (f : BodyField) (u : Updates)
    (h : senderRejected f = true) :
    checkSender f u = .error "Sender must be a single valid email address." := by
  rcases f with - | f
  · cases h
  rcases f with - | s
  · cases h
  · simp only [senderRejected] at h
    simp only [checkSender]
    rw [if_pos h]

theorem checkSender_ok (f : BodyField) (u : Updates)
    (h : senderRejected f = false) :
    ∃ u', checkSender f u = .ok u' ∧ u'.password = u.password ∧
      u'.recipients = u.recipients ∧
      (f = none ∨ f = some none → u'.sender = u.sender) ∧
      (∀ s, f = some (some s) → u'.sender = some (pyStrip s)) := by
  rcases f with - | f
  · refine ⟨u, rfl, rfl, rfl, fun _ => rfl, ?_⟩
    intro s h'; cases h'
  rcases f with - | s
  · refine ⟨u, rfl, rfl, rfl, fun _ => rfl, ?_⟩
    intro s h'; cases h'
  · simp only [senderRejected] at h
    have hn : ¬((!reMatchSender (pyStrip s).data ||
        (pyStrip s).data.contains ',') = true) := by
      rw [h]; exact Bool.false_ne_true
    refine ⟨{ u with sender := some (pyStrip s) }, ?_, rfl, rfl, ?_, ?_⟩
    · simp only [checkSender]
      rw [if_neg hn]
    · rintro (h' | h') <;> cases h'
    · intro s' h'
      cases h'
      rfl

theorem checkPassword_error (f : BodyField) (u : Updates)
    (h : passwordRejected f = true) :
    checkPassword f u = .error "Password must not contain whitespaces." := by
  rcases f with - | f
  · cases h
  rcases f with - | s
  · cases h
  · simp only [passwordRejected] at h
    simp only [checkPassword]
    rw [if_pos h]

theorem checkPassword_ok (f : BodyField) (u : Updates)
    (h : passwordRejected f = false) :
    ∃ u', checkPassword f u = .ok u' ∧ u'.sender = u.sender ∧
      u'.recipients = u.recipients ∧
      (f = none ∨ f = some none → u'.password = u.password) ∧
      (∀ s, f = some (some s) → pyStrip s = "" → u'.password = u.password) ∧
      (∀ s, f = some (some s) → pyStrip s ≠ "" → u'.password = some (pyStrip s)) := by
  rcases f with - | f
  · refine ⟨u, rfl, rfl, rfl, fun _ => rfl, ?_, ?_⟩
    · intro s h'; cases h'
    · intro s h'; cases h'
  rcases f with - | s
  · refine ⟨u, rfl, rfl, rfl, fun _ => rfl, ?_, ?_⟩
    · intro s h'; cases h'
    · intro s h'; cases h'
  · simp only [passwordRejected] at h
    have hn : ¬((pyStrip s).data.any pyIsSpace = true) := by
      rw [h]; exact Bool.false_ne_true
    by_cases he : pyStrip s = ""
    · refine ⟨u, ?_, rfl, rfl, fun _ => rfl, fun _ _ _ => rfl, ?_⟩
      · simp only [checkPassword]
        rw [if_neg hn, if_pos he]
      · intro s' h' hne
        cases h'
        exact absurd he hne
    · refine ⟨{ u with password := some (pyStrip s) }, ?_, rfl, rfl, ?_, ?_, ?_⟩
      · simp only [checkPassword]
        rw [if_neg hn, if_neg he]
      · rintro (h' | h') <;> cases h'
      · intro s' h' he'
        cases h'
        exact absurd he' he
      · intro s' h' _
        cases h'
        rfl

theorem checkRecipients_error (f : BodyField) (u : Updates)
    (h : recipientsRejected f = true) :
    (∃ m, checkRecipients f u = .error m) := by
  rcases f with - | f
  · cases h
  rcases f with - | s
  · cases h
  · simp only [recipientsRejected, Bool.or_eq_true] at h
    by_cases hsp : (pyStrip s).data.contains ' ' = true
    · refine ⟨"Recipients must be comma-separated with NO spaces.", ?_⟩
      simp only [checkRecipients]
      rw [if_pos hsp]
    · have h' : ((emailListOf (pyStrip s)).find?
          (fun e => !(e.data.contains '@'))).isSome = true := by
        rcases h with h | h
        · exact absurd h hsp
        · exact h
      obtain ⟨email, he⟩ := Option.isSome_iff_exists.mp h'
      refine ⟨"Invalid email in recipients: " ++ email, ?_⟩
      simp only [checkRecipients]
      rw [if_neg hsp, he]

theorem checkRecipients_ok (f : BodyField) (u : Updates)
    (h : recipientsRejected f = false) :
    ∃ u', checkRecipients f u = .ok u' ∧ u'.sender = u.sender ∧
      u'.password = u.password ∧
      (f = none ∨ f = some none → u'.recipients = u.recipients) ∧
      (∀ s, f = some (some s) → u'.recipients = some (emailListOf (pyStrip s))) := by
  rcases f with - | f
  · refine ⟨u, rfl, rfl, rfl, fun _ => rfl, ?_⟩
    intro s h'; cases h'
  rcases f with - | s
  · refine ⟨u, rfl, rfl, rfl, fun _ => rfl, ?_⟩
    intro s h'; cases h'
  · simp only [recipientsRejected] at h
    have h1 : (pyStrip s).data.contains ' ' = false := by
      cases h' : (pyStrip s).data.contains ' ' with
      | false => rfl
      | true => rw [h', Bool.true_or] at h; cases h
    rw [h1, Bool.false_or] at h
    have h2 : (emailListOf (pyStrip s)).find? (fun e => !(e.data.contains '@')) = none := by
      cases h' : (emailListOf (pyStrip s)).find? (fun e => !(e.data.contains '@')) with
      | none => rfl
      | some v => rw [h', Option.isSome_some] at h; cases h
    have hn : ¬((pyStrip s).data.contains ' ' = true) := by
      rw [h1]; exact Bool.false_ne_true
    refine ⟨{ u with recipients := some (emailListOf (pyStrip s)) }, ?_, rfl, rfl, ?_, ?_⟩
    · simp only [checkRecipients]
      rw [if_neg hn, h2]
    · rintro (h' | h') <;> cases h'
    · intro s' h'
      cases h'
      rfl

/-! ### Evaluation of the full update handler -/

theorem processBody_ok (b : Body)
    (hs : senderRejected b.sender = false)
    (hp : passwordRejected b.password = false)
    (hr : recipientsRejected b.recipients = false) :
    ∃ u, processBody b = .ok u
      ∧ (b.sender = none ∨ b.sender = some none → u.sender = none)
      ∧ (∀ s, b.sender = some (some s) → u.sender = some (pyStrip s))
      ∧ (b.password = none ∨ b.password = some none → u.password = none)
      ∧ (∀ s, b.password = some (some s) → pyStrip s = "" → u.password = none)
      ∧ (∀ s, b.password = some (some s) → pyStrip s ≠ "" →
          u.password = some (pyStrip s))
      ∧ (b.recipients = none ∨ b.recipients = some none → u.recipients = none)
      ∧ (∀ s, b.recipients = some (some s) →
          u.recipients = some (emailListOf (pyStrip s))) := by
  obtain ⟨u1, h1, h1p, h1r, h1skip, h1val⟩ := checkSender_ok b.sender emptyUpdates hs
  obtain ⟨u2, h2, h2s, h2r, h2skip, h2empty, h2val⟩ := checkPassword_ok b.password u1 hp
  obtain ⟨u3, h3, h3s, h3p, h3skip, h3val⟩ := checkRecipients_ok b.recipients u2 hr
  refine ⟨u3, ?_, ?_, ?_, ?_, ?_, ?_, ?_, h3val⟩
  · simp only [processBody]
    rw [h1]
    simp only [Except.bind]
    rw [h2]
    simp only [Except.bind]
    exact h3
  · intro h
    rw [h3s, h2s, h1skip h]
    rfl
  · intro s h
    rw [h3s, h2s, h1val s h]
  · intro h
    rw [h3p, h2skip h, h1p]
    rfl
  · intro s h he
    rw [h3p, h2empty s h he, h1p]
    rfl
  · intro s h he
    rw [h3p, h2val s h he]
  · intro h
    rw [h3skip h, h2r, h1r]
    rfl

theorem processBody_error_of_rejected (b : Body)
    (h : senderRejected b.sender = true ∨ passwordRejected b.password = true ∨
      recipientsRejected b.recipients = true) :
    ∃ msg, processBody b = .error msg := by
  cases hs : senderRejected b.sender with
  | true =>
    refine ⟨"Sender must be a single valid email address.", ?_⟩
    simp only [processBody]
    rw [checkSender_error b.sender emptyUpdates hs]
    rfl
  | false =>
    obtain ⟨u1, h1, -, -, -, -⟩ := checkSender_ok b.sender emptyUpdates hs
    cases hp : passwordRejected b.password with
    | true =>
      refine ⟨"Password must not contain whitespaces.", ?_⟩
      simp only [processBody]
      rw [h1]
      simp only [Except.bind]
      rw [checkPassword_error b.password u1 hp]
    | false =>
      obtain ⟨u2, h2, -, -, -, -, -⟩ := checkPassword_ok b.password u1 hp
      have hr : recipientsRejected b.recipients = true := by
        rcases h with h | h | h
        · rw [hs] at h; cases h
        · rw [hp] at h; cases h
        · exact h
      obtain ⟨m, hm⟩ := checkRecipients_error b.recipients u2 hr
      refine ⟨m, ?_⟩
      simp only [processBody]
      rw [h1]
      simp only [Except.bind]
      rw [h2]
      simp only [Except.bind]
      exact hm

theorem update_err_of_processBody_error (b : Body) (oc : Except String Unit)
    (msg : String) (h : processBody b = .error msg) :
    update_notification_settings b oc = (.err msg, []) := by
  simp only [update_notification_settings, h]

theorem update_write_of_processBody_ok (b : Body) (u : Updates)
    (h : processBody b = .ok u) (hne : u ≠ emptyUpdates) :
    update_notification_settings b (.ok ()) =
      (.ok "Settings updated successfully", [u]) := by
  simp only [update_notification_settings, h]
  rw [if_neg hne]

theorem update_caught_write_error (b : Body) (u : Updates) (e : String)
    (h : processBody b = .ok u) (hne : u ≠ emptyUpdates) :
    update_notification_settings b (.error e) = (.err e, [u]) := by
  simp only [update_notification_settings, h]
  rw [if_neg hne]

theorem update_noop_of_empty (b : Body) (oc : Except String Unit)
    (h : processBody b = .ok emptyUpdates) :
    update_notification_settings b oc =
      (.ok "Settings updated successfully", []) := by
  simp only [update_notification_settings, h]
  simp

/-! ### Claims -/

/-- Claim C1, counterexample: the claim says the sender validator accepts
only if the ENTIRE trimmed string matches the email pattern with no internal
whitespace anywhere.  The code uses `re.match`, which anchors at the start
only, so `"a@b.com x"` (internal space, trailing junk) is accepted and
stored verbatim. -/
theorem sender_claim_counterexample :
    update_notification_settings
        { sender := some (some "a@b.com x"), password := none, recipients := none }
        (.ok ())
      = (.ok "Settings updated successfully",
          [{ sender := some "a@b.com x", password := none, recipients := none }])
    ∧ (pyStrip "a@b.com x").data.contains ' ' = true := by
  constructor
  · decide
  · decide

/-- Claim C1, amended: for a `POST` body carrying only `sender`, the value is
trimmed and accepted iff some PREFIX of the trimmed string matches
`local@domain.tld` (nonempty runs over non-`@` non-whitespace characters,
with a dot in the domain) and the whole trimmed string contains no comma;
on acceptance exactly the trimmed string is submitted for storage, otherwise
a structured rejection is returned and nothing is written. -/
theorem sender_validation_amended (s : String) :
    (update_notification_settings
        { sender := some (some s), password := none, recipients := none } (.ok ())
      = (.ok "Settings updated successfully",
          [{ sender := some (pyStrip s), password := none, recipients := none }])
      ↔ EmailPrefixPattern (pyStrip s).data ∧ (pyStrip s).data.contains ',' = false)
    ∧ (¬(EmailPrefixPattern (pyStrip s).data ∧
          (pyStrip s).data.contains ',' = false) →
        update_notification_settings
          { sender := some (some s), password := none, recipients := none } (.ok ())
        = (.err "Sender must be a single valid email address.", [])) := by
  have key : senderRejected (some (some s)) = false ↔
      (EmailPrefixPattern (pyStrip s).data ∧ (pyStrip s).data.contains ',' = false) := by
    simp only [senderRejected, Bool.or_eq_false_iff, Bool.not_eq_false']
    rw [reMatchSender_iff]
  cases hs : senderRejected (some (some s)) with
  | false =>
    have hpat := key.mp hs
    obtain ⟨u, hu, -, husval, hup, -, -, hur, -⟩ :=
      processBody_ok { sender := some (some s), password := none, recipients := none }
        hs rfl rfl
    obtain ⟨us, up, ur⟩ := u
    have e1 : us = some (pyStrip s) := husval s rfl
    have e2 : up = none := hup (Or.inl rfl)
    have e3 : ur = none := hur (Or.inl rfl)
    subst e1; subst e2; subst e3
    have hne : (⟨some (pyStrip s), none, none⟩ : Updates) ≠ emptyUpdates := by
      intro h
      cases h
    have hupd := update_write_of_processBody_ok _ _ hu hne
    constructor
    · exact ⟨fun _ => hpat, fun _ => hupd⟩
    · intro hn
      exact absurd hpat hn
  | true =>
    have hpat : ¬(EmailPrefixPattern (pyStrip s).data ∧
        (pyStrip s).data.contains ',' = false) := by
      intro hp
      rw [key.mpr hp] at hs
      cases hs
    have herr : processBody
        { sender := some (some s), password := none, recipients := none }
        = .error "Sender must be a single valid email address." := by
      simp only [processBody]
      rw [checkSender_error _ _ hs]
      rfl
    have hupd := update_err_of_processBody_error _ (.ok ()) _ herr
    constructor
    · constructor
      · intro heq
        rw [hupd] at heq
        cases heq
      · intro hp
        exact absurd hp hpat
    · intro _
      exact hupd

/-- Claim C1, witness for the amended theorem: `"a@b.com"` is accepted and
stored verbatim. -/
theorem sender_validation_amended_witness :
    update_notification_settings
        { sender := some (some "a@b.com"), password := none, recipients := none }
        (.ok ())
      = (.ok "Settings updated successfully",
          [{ sender := some (pyStrip "a@b.com"), password := none, recipients := none }]) :=
  (sender_validation_amended "a@b.com").1.mpr
    ⟨(reMatchSender_iff _).mp (by decide), by decide⟩

/-- Claim C2: the shaped `link` field equals `video_url ++ "&t={int(start_sec)}s"`
when `start_sec` is present and `int(...)`-convertible; it equals `video_url`
unchanged when `start_sec` is absent, null, or not convertible; and it is
null when `video_url` is absent from the row. -/
theorem mentions_link_shaping (r : BqRow) :
    (∀ u sv n, r.video_url = some (.vstr u) → r.start_sec = some sv →
      pyToInt sv = some n →
      (shapeRow r).link = .vstr (u ++ "&t=" ++ toString n ++ "s"))
  ∧ (∀ u, r.video_url = some (.vstr u) →
      (r.start_sec = none ∨ r.start_sec = some .vnull ∨
        (∃ sv, r.start_sec = some sv ∧ pyToInt sv = none)) →
      (shapeRow r).link = .vstr u)
  ∧ (r.video_url = none → (shapeRow r).link = .vnull) := by
  refine ⟨?_, ?_, ?_⟩
  · intro u sv n hu hsv hn
    simp [shapeRow, rowLink, getattrD, pyStr, hu, hsv, hn]
  · intro u hu hcase
    rcases hcase with h | h | ⟨sv, hsv, hnone⟩
    · simp [shapeRow, rowLink, getattrD, hu, h]
    · simp [shapeRow, rowLink, getattrD, pyToInt, hu, h]
    · simp [shapeRow, rowLink, getattrD, hu, hsv, hnone]
  · intro hu
    simp [shapeRow, rowLink, getattrD, hu]

/-- Claim C2, witness: the spec's example row. -/
theorem mentions_link_shaping_witness :
    (shapeRow { video_name := none, keyword := none, text := none,
                video_url := some (.vstr "https://x/y"),
                start_sec := some (.vint 42),
                created_at := none }).link = .vstr "https://x/y&t=42s" := by
  have h := (mentions_link_shaping
    { video_name := none, keyword := none, text := none,
      video_url := some (.vstr "https://x/y"), start_sec := some (.vint 42),
      created_at := none }).1 "https://x/y" (.vint 42) 42 rfl rfl rfl
  exact h.trans (by decide)

/-- Claim C3: if validation of any present field fails, the handler returns
a structured `{ok: false, error}` response and issues no write, regardless
of the state of the other fields and of the store. -/
theorem validation_failure_aborts_update (b : Body) (oc : Except String Unit)
    (h : senderRejected b.sender = true ∨ passwordRejected b.password = true ∨
      recipientsRejected b.recipients = true) :
    ∃ msg, update_notification_settings b oc = (.err msg, []) := by
  obtain ⟨msg, hm⟩ := processBody_error_of_rejected b h
  exact ⟨msg, update_err_of_processBody_error b oc msg hm⟩

/-- Claim C3, witness: a valid sender together with an invalid password
still aborts the whole update with no write. -/
theorem validation_failure_aborts_update_witness :
    passwordRejected (some (some "sec ret")) = true ∧
    senderRejected (some (some "ok@mail.com")) = false ∧
    ∃ msg, update_notification_settings
        { sender := some (some "ok@mail.com"), password := some (some "sec ret"),
          recipients := none } (.ok ())
      = (.err msg, []) :=
  ⟨by decide, by decide,
    validation_failure_aborts_update _ _ (Or.inr (Or.inl (by decide)))⟩

theorem checkRecipients_space_error (s : String) (u : Updates)
    (h : (pyStrip s).data.contains ' ' = true) :
    checkRecipients (some (some s)) u =
      .error "Recipients must be comma-separated with NO spaces." := by
  simp only [checkRecipients]
  rw [if_pos h]

theorem checkRecipients_bad_email_error (s : String) (u : Updates) (bad : String)
    (h1 : (pyStrip s).data.contains ' ' = false)
    (h2 : (emailListOf (pyStrip s)).find? (fun e => !(e.data.contains '@')) = some bad) :
    checkRecipients (some (some s)) u =
      .error ("Invalid email in recipients: " ++ bad) := by
  have hn : ¬((pyStrip s).data.contains ' ' = true) := by
    rw [h1]; exact Bool.false_ne_true
  simp only [checkRecipients]
  rw [if_neg hn, h2]

theorem processBody_error_password (b : Body)
    (hs : senderRejected b.sender = false)
    (hp : passwordRejected b.password = true) :
    processBody b = .error "Password must not contain whitespaces." := by
  obtain ⟨u1, h1, -, -, -, -⟩ := checkSender_ok b.sender emptyUpdates hs
  simp only [processBody]
  rw [h1]
  simp only [Except.bind]
  rw [checkPassword_error b.password u1 hp]

theorem processBody_error_recipients (b : Body) (m : String)
    (hs : senderRejected b.sender = false)
    (hp : passwordRejected b.password = false)
    (hm : ∀ u, checkRecipients b.recipients u = .error m) :
    processBody b = .error m := by
  obtain ⟨u1, h1, -, -, -, -⟩ := checkSender_ok b.sender emptyUpdates hs
  obtain ⟨u2, h2, -, -, -, -, -⟩ := checkPassword_ok b.password u1 hp
  simp only [processBody]
  rw [h1]
  simp only [Except.bind]
  rw [h2]
  simp only [Except.bind]
  exact hm u2

theorem processBody_ok_not_rejected (b : Body) (u : Updates)
    (h : processBody b = .ok u) :
    senderRejected b.sender = false ∧ passwordRejected b.password = false ∧
      recipientsRejected b.recipients = false := by
  cases hs : senderRejected b.sender with
  | true =>
    simp only [processBody] at h
    rw [checkSender_error _ _ hs] at h
    simp only [Except.bind] at h
    cases h
  | false =>
    obtain ⟨u1, h1, -, -, -, -⟩ := checkSender_ok b.sender emptyUpdates hs
    cases hp : passwordRejected b.password with
    | true =>
      simp only [processBody] at h
      rw [h1] at h
      simp only [Except.bind] at h
      rw [checkPassword_error _ _ hp] at h
      cases h
    | false =>
      obtain ⟨u2, h2, -, -, -, -, -⟩ := checkPassword_ok b.password u1 hp
      cases hr : recipientsRejected b.recipients with
      | true =>
        obtain ⟨m, hm⟩ := checkRecipients_error b.recipients u2 hr
        simp only [processBody] at h
        rw [h1] at h
        simp only [Except.bind] at h
        rw [h2] at h
        simp only [Except.bind] at h
        rw [hm] at h
        cases h
      | false =>
        exact ⟨rfl, rfl, rfl⟩

/-- Claim C4: recipients handling.  With the earlier branches passing, the
trimmed recipients string is rejected (with the fixed message) when it
contains a space; otherwise it is split on commas with segments trimmed and
empties dropped, the update is rejected naming the first candidate lacking
`'@'`; and otherwise exactly that ordered, non-deduplicated list is what the
merge-write carries for `recipients`. -/
theorem recipients_validation (b : Body) (s : String)
    (hb : b.recipients = some (some s))
    (hs : senderRejected b.sender = false)
    (hp : passwordRejected b.password = false) :
    ((pyStrip s).data.contains ' ' = true →
      ∀ oc, update_notification_settings b oc =
        (.err "Recipients must be comma-separated with NO spaces.", []))
  ∧ (∀ bad, (pyStrip s).data.contains ' ' = false →
      (emailListOf (pyStrip s)).find? (fun e => !(e.data.contains '@')) = some bad →
      ∀ oc, update_notification_settings b oc =
        (.err ("Invalid email in recipients: " ++ bad), []))
  ∧ ((pyStrip s).data.contains ' ' = false →
      (emailListOf (pyStrip s)).find? (fun e => !(e.data.contains '@')) = none →
      ∃ u, update_notification_settings b (.ok ()) =
          (.ok "Settings updated successfully", [u]) ∧
        u.recipients = some (emailListOf (pyStrip s))) := by
  refine ⟨?_, ?_, ?_⟩
  · intro hsp oc
    have herr := processBody_error_recipients b
      "Recipients must be comma-separated with NO spaces." hs hp
      (fun u => by rw [hb]; exact checkRecipients_space_error s u hsp)
    exact update_err_of_processBody_error b oc _ herr
  · intro bad h1 h2 oc
    have herr := processBody_error_recipients b
      ("Invalid email in recipients: " ++ bad) hs hp
      (fun u => by rw [hb]; exact checkRecipients_bad_email_error s u bad h1 h2)
    exact update_err_of_processBody_error b oc _ herr
  · intro h1 h2
    have hr : recipientsRejected b.recipients = false := by
      rw [hb]
      simp only [recipientsRejected]
      rw [h1, h2]
      rfl
    obtain ⟨u, hu, -, -, -, -, -, -, hrec⟩ := processBody_ok b hs hp hr
    have hurec : u.recipients = some (emailListOf (pyStrip s)) := hrec s hb
    have hne : u ≠ emptyUpdates := by
      intro heq
      rw [heq] at hurec
      cases hurec
    exact ⟨u, update_write_of_processBody_ok b u hu hne, hurec⟩

/-- Claim C4, witness: a list with a bad second address is rejected naming
it, and a clean two-address list is stored as the split list. -/
theorem recipients_validation_witness :
    ((emailListOf (pyStrip "a@x.com,notanemail")).find?
        (fun e => !(e.data.contains '@')) = some "notanemail")
  ∧ update_notification_settings
      { sender := none, password := none,
        recipients := some (some "a@x.com,notanemail") } (.ok ())
    = (.err ("Invalid email in recipients: " ++ "notanemail"), []) := by
  refine ⟨by decide, ?_⟩
  exact (recipients_validation
    { sender := none, password := none,
      recipients := some (some "a@x.com,notanemail") }
    "a@x.com,notanemail" rfl rfl rfl).2.1
    "notanemail" (by decide) (by decide) (.ok ())

/-- Claim C5, counterexample: the claim says every successful request with
at least one recognized field present performs exactly one merge-write.  A
request whose only recognized field is `password` with the empty string is
successful but performs ZERO writes (the empty password is skipped and the
`updates` dict stays empty). -/
theorem merge_write_claim_counterexample :
    update_notification_settings
        { sender := none, password := some (some ""), recipients := none } (.ok ())
      = (.ok "Settings updated successfully", []) := by
  decide

/-- Claim C5, amended: on success, exactly one merge-write is performed iff
the accumulated update set is non-empty (a present field may contribute
nothing: a null value, or a password trimming to empty); the write carries
exactly the validated fields, and merging preserves every stored field whose
key is absent from the request. -/
theorem merge_write_semantics_amended (b : Body) (d : FsDoc)
    (hs : senderRejected b.sender = false)
    (hp : passwordRejected b.password = false)
    (hr : recipientsRejected b.recipients = false) :
    ∃ u, processBody b = .ok u
      ∧ (u ≠ emptyUpdates →
          update_notification_settings b (.ok ()) =
            (.ok "Settings updated successfully", [u]))
      ∧ (u = emptyUpdates → ∀ oc,
          update_notification_settings b oc =
            (.ok "Settings updated successfully", []))
      ∧ (b.sender = none ∨ b.sender = some none →
          (mergeDoc d u).sender = d.sender)
      ∧ (b.password = none ∨ b.password = some none →
          (mergeDoc d u).password = d.password)
      ∧ (b.recipients = none ∨ b.recipients = some none →
          (mergeDoc d u).recipients = d.recipients) := by
  obtain ⟨u, hu, hsSkip, -, hpSkip, -, -, hrSkip, -⟩ := processBody_ok b hs hp hr
  refine ⟨u, hu, ?_, ?_, ?_, ?_, ?_⟩
  · intro hne
    exact update_write_of_processBody_ok b u hu hne
  · intro heq oc
    rw [heq] at hu
    exact update_noop_of_empty b oc hu
  · intro h
    simp only [mergeDoc, hsSkip h]
  · intro h
    simp only [mergeDoc, hpSkip h]
  · intro h
    simp only [mergeDoc, hrSkip h]

/-- Claim C5, witness: a sender-only update writes once and leaves the
stored password and recipients untouched by the merge. -/
theorem merge_write_semantics_amended_witness :
    ∃ u, processBody
        { sender := some (some "new@e.com"), password := none, recipients := none }
      = .ok u
      ∧ (u ≠ emptyUpdates →
          update_notification_settings
              { sender := some (some "new@e.com"), password := none,
                recipients := none } (.ok ()) =
            (.ok "Settings updated successfully", [u]))
      ∧ (u = emptyUpdates → ∀ oc,
          update_notification_settings
              { sender := some (some "new@e.com"), password := none,
                recipients := none } oc =
            (.ok "Settings updated successfully", []))
      ∧ ((some (some "new@e.com") : BodyField) = none ∨
          (some (some "new@e.com") : BodyField) = some none →
          (mergeDoc ⟨some "old@e.com", some "pw", some ["r@x.com"]⟩ u).sender
            = some "old@e.com")
      ∧ ((none : BodyField) = none ∨ (none : BodyField) = some none →
          (mergeDoc ⟨some "old@e.com", some "pw", some ["r@x.com"]⟩ u).password
            = some "pw")
      ∧ ((none : BodyField) = none ∨ (none : BodyField) = some none →
          (mergeDoc ⟨some "old@e.com", some "pw", some ["r@x.com"]⟩ u).recipients
            = some ["r@x.com"]) :=
  merge_write_semantics_amended
    { sender := some (some "new@e.com"), password := none, recipients := none }
    ⟨some "old@e.com", some "pw", some ["r@x.com"]⟩ (by decide) rfl rfl

/-- Claim C6: password handling.  With the sender branch passing: a trimmed
password containing any whitespace character is rejected with the fixed
message and no write; a password trimming to the empty string is silently
skipped (it never reaches the update set, and the request still succeeds
when recipients also pass); a non-empty whitespace-free trimmed password is
stored trimmed. -/
theorem password_validation (b : Body) (s : String)
    (hb : b.password = some (some s))
    (hs : senderRejected b.sender = false) :
    ((pyStrip s).data.any pyIsSpace = true →
      ∀ oc, update_notification_settings b oc =
        (.err "Password must not contain whitespaces.", []))
  ∧ (pyStrip s = "" →
      (∀ u, processBody b = .ok u → u.password = none)
      ∧ (recipientsRejected b.recipients = false →
          (update_notification_settings b (.ok ())).1 =
            .ok "Settings updated successfully"))
  ∧ ((pyStrip s).data.any pyIsSpace = false → pyStrip s ≠ "" →
      ∀ u, processBody b = .ok u → u.password = some (pyStrip s)) := by
  refine ⟨?_, ?_, ?_⟩
  · intro hws oc
    have hp : passwordRejected b.password = true := by
      rw [hb]
      simp only [passwordRejected]
      exact hws
    exact update_err_of_processBody_error b oc _ (processBody_error_password b hs hp)
  · intro he
    have hp : passwordRejected b.password = false := by
      rw [hb]
      simp only [passwordRejected]
      rw [he]
      rfl
    constructor
    · intro u hu
      obtain ⟨-, -, hr⟩ := processBody_ok_not_rejected b u hu
      obtain ⟨u', hu', -, -, -, hemp, -, -, -⟩ := processBody_ok b hs hp hr
      have : u' = u := Except.ok.inj (hu'.symm.trans hu)
      subst this
      exact hemp s hb he
    · intro hr
      obtain ⟨u, hu, -, -, -, -, -, -, -⟩ := processBody_ok b hs hp hr
      by_cases hne : u = emptyUpdates
      · rw [hne] at hu
        rw [update_noop_of_empty b (.ok ()) hu]
      · rw [update_write_of_processBody_ok b u hu hne]
  · intro hws hne u hu
    obtain ⟨-, -, hr⟩ := processBody_ok_not_rejected b u hu
    have hp : passwordRejected b.password = false := by
      rw [hb]
      simp only [passwordRejected]
      exact hws
    obtain ⟨u', hu', -, -, -, -, hval, -, -⟩ := processBody_ok b hs hp hr
    have : u' = u := Except.ok.inj (hu'.symm.trans hu)
    subst this
    exact hval s hb hne

/-- Claim C6, witness: `"sec ret"` is rejected; the empty password is a
silent no-op on a request that still succeeds. -/
theorem password_validation_witness :
    ((pyStrip "sec ret").data.any pyIsSpace = true ∧
      update_notification_settings
          { sender := none, password := some (some "sec ret"), recipients := none }
          (.ok ())
        = (.err "Password must not contain whitespaces.", []))
  ∧ (pyStrip "" = "" ∧
      (update_notification_settings
          { sender := none, password := some (some ""), recipients := none }
          (.ok ())).1
        = .ok "Settings updated successfully") := by
  constructor
  · refine ⟨by decide, ?_⟩
    exact (password_validation
      { sender := none, password := some (some "sec ret"), recipients := none }
      "sec ret" rfl rfl).1 (by decide) (.ok ())
  · refine ⟨rfl, ?_⟩
    exact ((password_validation
      { sender := none, password := some (some ""), recipients := none }
      "" rfl rfl).2.1 rfl).2 rfl

/-- Claim C7: for any two hour counts the generated SQL text is the same
string (hours is never concatenated into the query text); hours enters only
as the bound parameter `@hours`; and the query's semantics keeps exactly the
rows with `created_at > now - hours` hours, ordered by `created_at`
descending. -/
theorem mentions_query_properties (p d t : String) (h1 h2 : Int)
    (hh1 : 1 ≤ h1) (hh2 : 1 ≤ h2) :
    (buildMentionsQuery p d t h1).sql = (buildMentionsQuery p d t h2).sql
  ∧ (buildMentionsQuery p d t h1).params = [("hours", "INT64", h1)]
  ∧ (∀ now table row, row ∈ runMentionsQuery now h1 table ↔
      (row ∈ table ∧ now - h1 * 3600 < row.1))
  ∧ (∀ now table, (runMentionsQuery now h1 table).Pairwise
      (fun a b => b.1 ≤ a.1)) := by
  refine ⟨rfl, rfl, ?_, ?_⟩
  · intro now table row
    simp [runMentionsQuery, List.mem_mergeSort, List.mem_filter]
  · intro now table
    have htrans : ∀ (a b c : Int × BqRow),
        (fun x y : Int × BqRow => decide (y.1 ≤ x.1)) a b = true →
        (fun x y : Int × BqRow => decide (y.1 ≤ x.1)) b c = true →
        (fun x y : Int × BqRow => decide (y.1 ≤ x.1)) a c = true := by
      intro a b c hab hbc
      simp only [decide_eq_true_eq] at hab hbc ⊢
      omega
    have htotal : ∀ (a b : Int × BqRow),
        ((fun x y : Int × BqRow => decide (y.1 ≤ x.1)) a b ||
          (fun x y : Int × BqRow => decide (y.1 ≤ x.1)) b a) = true := by
      intro a b
      simp only [Bool.or_eq_true, decide_eq_true_eq]
      omega
    have hsorted := List.sorted_mergeSort htrans htotal
      (table.filter (fun q => decide (now - h1 * 3600 < q.1)))
    exact hsorted.imp (fun h => by simpa using h)

/-- Claim C7, witness: concrete instance at hours 24 and 1. -/
theorem mentions_query_properties_witness :
    (1 : Int) ≤ 24 ∧
    (buildMentionsQuery "proj" "ds" "tbl" 24).sql =
      (buildMentionsQuery "proj" "ds" "tbl" 1).sql ∧
    (buildMentionsQuery "proj" "ds" "tbl" 24).params = [("hours", "INT64", 24)] := by
  have h := mentions_query_properties "proj" "ds" "tbl" 24 1 (by decide) (by decide)
  exact ⟨by decide, h.1, h.2.1⟩

/-- Claim C8: reading the settings when the singleton document does not
exist returns `{ok: true}` with the all-empty triple and issues no write. -/
theorem read_missing_settings_defaults :
    get_notification_settings (.ok none) = (.ok "" "" "", []) := rfl

/-- Claim C9: an external-store error in either settings handler is caught
and reported in-body as `{ok: false, error}` (the handler still returns a
response and its writes stay as issued), while an error during the mentions
query execution propagates out of the handler uncaught. -/
theorem error_handling_asymmetry :
    (∀ e, get_notification_settings (.error e) = (.err e, []))
  ∧ (∀ b u e, processBody b = .ok u → u ≠ emptyUpdates →
      update_notification_settings b (.error e) = (.err e, [u]))
  ∧ (∀ p d t h e, get_recent_mentions p d t h (fun _ => .error e) = .error e) := by
  refine ⟨fun e => rfl, ?_, fun p d t h e => rfl⟩
  intro b u e hu hne
  exact update_caught_write_error b u e hu hne

/-- Claim C9, witness: concrete store failures. -/
theorem error_handling_asymmetry_witness :
    get_notification_settings (.error "boom") = (.err "boom", [])
  ∧ update_notification_settings
      { sender := some (some "a@b.com"), password := none, recipients := none }
      (.error "boom")
    = (.err "boom", [{ sender := some "a@b.com", password := none, recipients := none }])
  ∧ get_recent_mentions "p" "d" "t" 24 (fun _ => .error "boom") = .error "boom" := by
  refine ⟨error_handling_asymmetry.1 "boom", ?_,
    error_handling_asymmetry.2.2 "p" "d" "t" 24 "boom"⟩
  exact error_handling_asymmetry.2.1 _ _ "boom" rfl (by decide)

/-- Claim C10: a recipients value that trims to the empty string passes
validation, the update succeeds, and the single merge-write stores the empty
list for `recipients`, clearing any previously stored list (in contrast to
the empty password, which is skipped). -/
theorem recipients_empty_clears (b : Body) (s : String)
    (hb : b.recipients = some (some s)) (he : pyStrip s = "")
    (hs : senderRejected b.sender = false)
    (hp : passwordRejected b.password = false) :
    ∃ u, update_notification_settings b (.ok ()) =
        (.ok "Settings updated successfully", [u])
      ∧ u.recipients = some []
      ∧ ∀ d, (mergeDoc d u).recipients = some [] := by
  have hr : recipientsRejected b.recipients = false := by
    rw [hb]
    simp only [recipientsRejected]
    rw [he]
    rfl
  obtain ⟨u, hu, -, -, -, -, -, -, hrec⟩ := processBody_ok b hs hp hr
  have hurec : u.recipients = some [] := by
    have h := hrec s hb
    rw [he] at h
    exact h
  have hne : u ≠ emptyUpdates := by
    intro heq
    rw [heq] at hurec
    cases hurec
  refine ⟨u, update_write_of_processBody_ok b u hu hne, hurec, ?_⟩
  intro d
  simp only [mergeDoc, hurec]

/-- Claim C10, witness: a whitespace-only recipients value clears the stored
list. -/
theorem recipients_empty_clears_witness :
    pyStrip "   " = "" ∧
    ∃ u, update_notification_settings
        { sender := none, password := none, recipients := some (some "   ") }
        (.ok ()) =
        (.ok "Settings updated successfully", [u])
      ∧ u.recipients = some []
      ∧ ∀ d, (mergeDoc d u).recipients = some [] :=
  ⟨by decide, recipients_empty_clears
    { sender := none, password := none, recipients := some (some "   ") }
    "   " rfl (by decide) rfl rfl⟩

end NotifServer
